import Mathlib

/-!
# Verification of the amazon-ssm-agent excerpt

Shallow embedding of the two source files
`agent/cli/clicommand/sendcommand.go` and `agent/updateutil/updateutil.go`,
together with proofs about the properties claimed of them.

Conventions of the embedding:
* Go strings are Lean `String`s; byte-level operations of the source act on
  ASCII data in all relevant call sites, so character-level translations are
  faithful.
* Go maps (`map[string][]string`) are association lists with first-key-wins
  lookup.
* Fallible Go calls (`(T, error)` returns) become `Except` values, or oracle
  booleans when only success/failure matters.
* The filesystem seen by the polling loop is an explicit environment: a
  function from the attempt index to the directory listings observed at that
  attempt.
-/

namespace SsmAgent

/-- First-key-wins lookup in an association list; models Go map indexing
(`parameters[key]`) and the `_, exists := m[key]` idiom. -/
def assocLookup {β : Type} (key : String) : List (String × β) → Option β
  | [] => none
  | (k, v) :: rest => if k = key then some v else assocLookup key rest

/-! ## sendcommand.go: constants and message strings -/

/-- `sendCommand` constant (sendcommand.go:37). -/
def sendCommandName : String := "send-offline-command"

/-- `sendCommandContent` constant (sendcommand.go:38). -/
def sendCommandContent : String := "content"

/-- Modelled from the spec: `cliutil.FormatFlag` (not under src/) renders a
parameter name as a command-line flag; the claims depend only on it being a
fixed injective rendering, not on its exact text. -/
def formatFlag (name : String) : String := "--" ++ name

/-- The message built at sendcommand.go:95 for a rejected subcommand list;
`%v` of a Go string slice prints the elements space-separated in brackets. -/
def subcommandMsg (subcommands : List String) : String :=
  sendCommandName ++ " does not support subcommand [" ++
    String.intercalate " " subcommands ++ "]"

/-- The message built at sendcommand.go:101 for a missing content parameter. -/
def requiredMsg : String := formatFlag sendCommandContent ++ " is required"

/-- The message built at sendcommand.go:103 for a wrong value count. -/
def expectedOneValueMsg : String :=
  "expected 1 value for parameter " ++ formatFlag sendCommandContent

/-- The message built at sendcommand.go:108 for a value that is neither
valid JSON nor a URL. -/
def jsonOrUrlMsg : String :=
  formatFlag sendCommandContent ++ " value must be valid json or a URL"

/-- The message built at sendcommand.go:115 for an unknown parameter. -/
def unknownParameterMsg (key : String) : String :=
  "unknown parameter " ++ formatFlag key

/-! ## validateSendCommandInput (sendcommand.go:92-119)

`cliutil.ValidJson` and `cliutil.ValidUrl` are external collaborators (not
under src/); the embedding takes them as parameters, so every theorem below
holds for every behaviour of those two predicates. -/

/-- The messages appended for the content parameter by the else-if chain at
sendcommand.go:100-110: missing key, wrong value count, and bad value are
mutually exclusive by construction. -/
def contentParamMsgs (validJson validUrl : String → Bool)
    (parameters : List (String × List String)) : List String :=
  match assocLookup sendCommandContent parameters with
  | none => [requiredMsg]
  | some [v] => if !validJson v && !validUrl v then [jsonOrUrlMsg] else []
  | some _ => [expectedOneValueMsg]

/-- The messages appended by the unknown-parameter loop at
sendcommand.go:113-117. -/
def unknownParamMsgs : List (String × List String) → List String
  | [] => []
  | (k, _) :: rest =>
    if k ≠ sendCommandContent then unknownParameterMsg k :: unknownParamMsgs rest
    else unknownParamMsgs rest

/-- `validateSendCommandInput` (sendcommand.go:92-119).  A non-empty
subcommand list appends its message plus an empty string and returns early,
skipping all remaining validation (the source comments that an invalid
subcommand is an attempt to run a different command). -/
def validateSendCommandInput (validJson validUrl : String → Bool)
    (subcommands : List String)
    (parameters : List (String × List String)) : List String :=
  if subcommands ≠ [] then
    [subcommandMsg subcommands, ""]
  else
    contentParamMsgs validJson validUrl parameters ++ unknownParamMsgs parameters

/-! ## validateContent (sendcommand.go:145-159) -/

/-- Modelled from the spec: `contracts.DocumentContent` (not under src/) is
`{schemaVersion: string, runtimeConfig: mapping|absent, mainSteps: ordered
sequence|absent}`; validation only inspects the lengths of the last two, so
their element types are irrelevant and kept opaque. -/
structure DocumentContent where
  SchemaVersion : String
  RuntimeConfig : List (String × String)
  MainSteps : List String
deriving DecidableEq

/-- `validateContent` (sendcommand.go:145-159). -/
def validateContent (content : DocumentContent) : Except String Unit :=
  if content.SchemaVersion = "1.2" then
    if content.RuntimeConfig.length = 0 then
      Except.error "runtimeConfig cannot be empty"
    else Except.ok ()
  else if content.SchemaVersion = "2.0" then
    if content.MainSteps.length = 0 then
      Except.error "mainSteps cannot be empty"
    else Except.ok ()
  else Except.error ("unsupported schema version " ++ content.SchemaVersion)

/-! ## isDocumentProcessed (sendcommand.go:197-205) -/

/-- Character-level translation of `file[strings.LastIndex(file, ".")+1:]`
(sendcommand.go:201): the suffix strictly after the last `'.'`, or the whole
list when no `'.'` occurs (Go `LastIndex` returns `-1` then). -/
def afterLastDotL : List Char → List Char
  | [] => []
  | c :: rest =>
    if '.' ∈ rest then afterLastDotL rest
    else if c = '.' then rest
    else c :: rest

/-- String form of `afterLastDotL`. -/
def afterLastDot (file : String) : String := String.mk (afterLastDotL file.toList)

/-- The per-file match condition of sendcommand.go:200:
`strings.HasPrefix(file, documentName) && strings.Contains(file, ".")`.
A byte-level prefix whose pattern is itself well-formed UTF-8 coincides with
a character-level prefix, so `List.isPrefixOf` over the character lists is a
faithful translation of `strings.HasPrefix`. -/
def matchesDocument (documentName file : String) : Bool :=
  List.isPrefixOf documentName.toList file.toList && decide ('.' ∈ file.toList)

/-- The loop body of `isDocumentProcessed` (sendcommand.go:199-204) over an
explicit list of file names: first match wins, returning the suffix after the
last dot as the command id. -/
def isDocumentProcessed (documentName : String) : List String → Bool × String
  | [] => (false, "")
  | file :: rest =>
    if matchesDocument documentName file then (true, afterLastDot file)
    else isDocumentProcessed documentName rest

/-- A directory listing as the polling code observes it: `.error` when
`fileutil.GetFileNames` fails. -/
def DirListing : Type := Except Unit (List String)

/-- Modelled from the spec: `fileutil.GetFileNames` (not under src/) returns
a nil name slice alongside its error, so the discarded-error idiom
`files, _ := fileutil.GetFileNames(folder)` (sendcommand.go:198) leaves
`files` empty on failure. -/
def listingFiles : DirListing → List String
  | Except.error _ => []
  | Except.ok fs => fs

/-- `isDocumentProcessed` (sendcommand.go:197-205) including the discarded
listing error of line 198. -/
def isDocumentProcessedL (documentName : String) (listing : DirListing) :
    Bool × String :=
  isDocumentProcessed documentName (listingFiles listing)

/-! ## waitForSubmitStatus (sendcommand.go:175-194)

The filesystem is an environment: `viewAt i` is the pair of listings of the
submitted and invalid areas observed during attempt `i` of the polling loop,
and a separate final view is observed by the post-deletion check (the
consumer may transition the entry at any time). -/

/-- The listings of the submitted and invalid areas at one observation
point. -/
structure AreaView where
  submitted : DirListing
  invalid : DirListing

/-- The success message of sendcommand.go:178 and sendcommand.go:188. -/
def successMsg (commandId : String) : String :=
  "successfully submitted with command id: " ++ commandId

/-- The rejection message of sendcommand.go:181 and sendcommand.go:191. -/
def invalidMsg : String := "failed to submit document: document was invalid"

/-- The timeout message of sendcommand.go:193. -/
def timedOutMsg : String := "failed to submit document: timed out"

/-- One check of the submitted area then the invalid area, as performed both
inside the loop (sendcommand.go:177-182) and after cleanup
(sendcommand.go:187-192); `none` means neither area matched. -/
def checkAreas (documentName : String) (v : AreaView) : Option String :=
  let s := isDocumentProcessedL documentName v.submitted
  if s.1 then some (successMsg s.2)
  else if (isDocumentProcessedL documentName v.invalid).1 then some invalidMsg
  else none

/-- The `for i := 0; i < 10; i++` polling loop of sendcommand.go:176-184,
with the attempt counter `i` and remaining `fuel` made explicit (the sleep
between attempts has no effect on the computed value). -/
def pollLoop (documentName : String) (viewAt : Nat → AreaView) :
    Nat → Nat → Option String
  | _, 0 => none
  | i, fuel + 1 =>
    match checkAreas documentName (viewAt i) with
    | some m => some m
    | none => pollLoop documentName viewAt (i + 1) fuel

/-- The observable outcome of `waitForSubmitStatus`: the returned string and
whether the pending-area file deletion of sendcommand.go:186 was reached. -/
structure WaitResult where
  message : String
  deletedPending : Bool
deriving DecidableEq

/-- `waitForSubmitStatus` (sendcommand.go:175-194).  `deleteOutcome` is the
success/failure of `fileutil.DeleteFile` at line 186, whose return value the
source discards; `finalView` is the state of both areas at the post-cleanup
check of lines 187-192. -/
def waitForSubmitStatus (documentName : String) (viewAt : Nat → AreaView)
    (deleteOutcome : Bool) (finalView : AreaView) : WaitResult :=
  match pollLoop documentName viewAt 0 10 with
  | some m => { message := m, deletedPending := false }
  | none =>
    let _ := deleteOutcome
    match checkAreas documentName finalView with
    | some m => { message := m, deletedPending := true }
    | none => { message := timedOutMsg, deletedPending := true }

/-! ## updateutil.go: output file paths (lines 51-58, 465-483, 519-543) -/

/-- `DefaultOutputFolder` constant (updateutil.go:52). -/
def DefaultOutputFolder : String := "output"

/-- `DefaultStandOut` constant (updateutil.go:55). -/
def DefaultStandOut : String := "stdout"

/-- `DefaultStandErr` constant (updateutil.go:58). -/
def DefaultStandErr : String := "stderr"

/-- `filepath.Join` of two components, for the clean non-empty components the
update path helpers are applied to. -/
def goJoin (a b : String) : String := a ++ "/" ++ b

/-- `UpdateOutputDirectory` (updateutil.go:465-467). -/
def UpdateOutputDirectory (updateRoot : String) : String :=
  goJoin updateRoot DefaultOutputFolder

/-- `UpdateStandOutPath` (updateutil.go:470-475). -/
def UpdateStandOutPath (updateRoot fileName : String) : String :=
  let fn := if fileName = "" then DefaultStandOut else fileName
  goJoin (UpdateOutputDirectory updateRoot) fn

/-- `UpdateStandErrPath` (updateutil.go:478-483). -/
def UpdateStandErrPath (updateRoot fileName : String) : String :=
  let fn := if fileName = "" then DefaultStandErr else fileName
  goJoin (UpdateOutputDirectory updateRoot) fn

/-- The two file paths computed by `setExeOutErr` (updateutil.go:528-529).
Note that the source passes the caller's stderr name to `UpdateStandOutPath`
on line 529, not to `UpdateStandErrPath`. -/
def setExeOutErrPaths (updaterRoot stdOut stdErr : String) : String × String :=
  (UpdateStandOutPath updaterRoot stdOut, UpdateStandOutPath updaterRoot stdErr)

/-! ## ExeCommand supervised mode (updateutil.go:255-318, 505-543)

The outcome of every external effect is an oracle field of `SupervisedEnv`;
the embedding tracks which of the two opened file handles are still open when
`ExeCommand` returns, and how the wait result is turned into an error. -/

/-- Modelled from the spec: the reserved "stopped preemptively" exit code
`pluginutil.CommandStoppedPreemptivelyExitCode` (not under src/).  The claims
depend only on this being the designated reserved code, not on its numeric
value. -/
def CommandStoppedPreemptivelyExitCode : Int := 137

/-- What `command.Wait()` (updateutil.go:297) reports. -/
inductive WaitOutcome where
  /-- `Wait` returned nil: the child exited with status 0. -/
  | exited0 : WaitOutcome
  /-- `Wait` returned an `*exec.ExitError` whose `syscall.WaitStatus` carries
  the given exit status (updateutil.go:301-304). -/
  | exitStatus (status : Int) : WaitOutcome
  /-- `Wait` failed with an error that is not an `*exec.ExitError`. -/
  | otherFailure : WaitOutcome
deriving DecidableEq

/-- Oracle for the effects of one supervised `ExeCommand` call. -/
structure SupervisedEnv where
  /-- `mkDirAll` of the output directory succeeds (updateutil.go:524). -/
  mkdirOk : Bool
  /-- Opening the stdout file succeeds (updateutil.go:533). -/
  openStdoutOk : Bool
  /-- Opening the stderr file succeeds (updateutil.go:539). -/
  openStderrOk : Bool
  /-- `cmdStart` succeeds (updateutil.go:289). -/
  startOk : Bool
  /-- What `command.Wait()` reports (updateutil.go:297). -/
  waitOutcome : WaitOutcome
  /-- `timer.Stop()` returned false, i.e. the 30-second timeout timer had
  already fired (updateutil.go:298). -/
  timerFired : Bool
deriving DecidableEq

/-- The handle/error state in which `setExeOutErr` (updateutil.go:519-544)
returns: which files it opened, and whether it returned an error. -/
structure SetupResult where
  stdoutOpened : Bool
  stderrOpened : Bool
  failed : Bool
deriving DecidableEq

/-- `setExeOutErr` (updateutil.go:519-544): on a mkdir or stdout-open failure
nothing is open; when the stdout file opens but the stderr file fails to
open, the function returns the error with the stdout handle already open. -/
def setExeOutErr (env : SupervisedEnv) : SetupResult :=
  if !env.mkdirOk then { stdoutOpened := false, stderrOpened := false, failed := true }
  else if !env.openStdoutOk then { stdoutOpened := false, stderrOpened := false, failed := true }
  else if !env.openStderrOk then { stdoutOpened := true, stderrOpened := false, failed := true }
  else { stdoutOpened := true, stderrOpened := true, failed := false }

/-- How a supervised `ExeCommand` call ends. -/
inductive ExeResult where
  /-- nil error: the child exited with status 0. -/
  | ok : ExeResult
  /-- `setExeOutErr`'s error was returned (updateutil.go:281-283). -/
  | setupFailed : ExeResult
  /-- `cmdStart`'s error was returned (updateutil.go:289-292). -/
  | startFailed : ExeResult
  /-- a non-`ExitError` wait failure was returned unchanged. -/
  | otherWaitFailed : ExeResult
  /-- the `CommandFailure` error of updateutil.go:310, carrying the exit code
  after the remap of updateutil.go:305-309. -/
  | exitFailure (exitCode : Int) : ExeResult
deriving DecidableEq

/-- The observable outcome of a supervised call: the returned error shape and
which acquired file handles are still open at return. -/
structure ExeOutcome where
  result : ExeResult
  stdoutStillOpen : Bool
  stderrStillOpen : Bool
deriving DecidableEq

/-- The supervised (`isAsync = false`) branch of `ExeCommand`
(updateutil.go:276-315).  The `defer ...Close()` pair of lines 284-285 is
registered only after the `setExeOutErr` error check of lines 281-283, so on
the setup-failure path whatever `setExeOutErr` had opened stays open; on
every later path both handles are closed at return.  The exit-code remap of
lines 305-309 replaces an OS-reported `-1` by the reserved code exactly when
the timeout timer had fired. -/
def exeCommandSupervised (env : SupervisedEnv) : ExeOutcome :=
  let setup := setExeOutErr env
  if setup.failed then
    { result := ExeResult.setupFailed
      stdoutStillOpen := setup.stdoutOpened
      stderrStillOpen := setup.stderrOpened }
  else if !env.startOk then
    { result := ExeResult.startFailed, stdoutStillOpen := false, stderrStillOpen := false }
  else
    match env.waitOutcome with
    | WaitOutcome.exited0 =>
      { result := ExeResult.ok, stdoutStillOpen := false, stderrStillOpen := false }
    | WaitOutcome.otherFailure =>
      { result := ExeResult.otherWaitFailed, stdoutStillOpen := false, stderrStillOpen := false }
    | WaitOutcome.exitStatus status =>
      let timedOut := env.timerFired
      let exitCode :=
        if status = -1 && timedOut then CommandStoppedPreemptivelyExitCode else status
      { result := ExeResult.exitFailure exitCode
        stdoutStillOpen := false
        stderrStillOpen := false }

/-! ## ExeCommand detached mode (updateutil.go:265-275) -/

/-- Go `unicode.IsSpace` restricted to Latin-1, the whitespace set
`strings.Fields` splits on. -/
def goIsSpace (c : Char) : Bool :=
  c = ' ' || c = '\t' || c = '\n' || c = '\u000B' || c = '\u000C' ||
    c = '\r' || c = '\u0085' || c = '\u00A0'

/-- Accumulator-based splitter behind `goFields`; `acc` holds the characters
of the field being read, in reverse. -/
def fieldsAux (acc : List Char) : List Char → List String
  | [] => if acc = [] then [] else [String.mk acc.reverse]
  | c :: rest =>
    if goIsSpace c then
      if acc = [] then fieldsAux [] rest
      else String.mk acc.reverse :: fieldsAux [] rest
    else fieldsAux (c :: acc) rest

/-- `strings.Fields` (updateutil.go:265): split around runs of whitespace. -/
def goFields (cmd : String) : List String := fieldsAux [] cmd.toList

/-- The argument vector `parts[0]`, `parts[1:]` built by the detached
(`isAsync = true`) branch of `ExeCommand` (updateutil.go:268): `none` when
`parts` is empty, in which case the Go expression `parts[0]` is an
out-of-range index and the call panics instead of returning an error. -/
def exeCommandAsyncArgv (cmd : String) : Option (String × List String) :=
  match goFields cmd with
  | [] => none
  | p :: rest => some (p, rest)

/-! ## IsPlatformUsingSystemD (updateutil.go:380-406) -/

/-- `PlatformCentOS` constant (updateutil.go:94). -/
def PlatformCentOS : String := "centos"

/-- `PlatformRedHat` constant (updateutil.go:88). -/
def PlatformRedHat : String := "red hat"

/-- `PlatformUbuntu` constant (updateutil.go:91). -/
def PlatformUbuntu : String := "ubuntu"

/-- `InstanceContext` (updateutil.go:166-173). -/
structure InstanceContext where
  Region : String
  Platform : String
  PlatformVersion : String
  InstallerName : String
  Arch : String
  CompressFormat : String
deriving DecidableEq

/-- The table built once by `getMinimumVersionForSystemD`
(updateutil.go:398-406): minimum platform version per systemd-capable
platform name. -/
def systemDVersionTable : List (String × String) :=
  [(PlatformCentOS, "7"), (PlatformRedHat, "7"), (PlatformUbuntu, "15")]

/-- `IsPlatformUsingSystemD` (updateutil.go:380-396).  `VersionCompare` lives
in this repository outside src/, so the embedding takes the comparator as a
parameter; an `.error` result models its non-nil error return. -/
def IsPlatformUsingSystemD
    (versionCompare : String → String → Except String Int)
    (i : InstanceContext) : Except String Bool :=
  match assocLookup i.Platform systemDVersionTable with
  | some minVersion =>
    match versionCompare i.PlatformVersion minVersion with
    | Except.error e => Except.error e
    | Except.ok compareResult =>
      if compareResult ≥ 0 then Except.ok true else Except.ok false
  | none => Except.ok false

/-! ## Theorems -/

/-- Claim C6: `validateContent` succeeds exactly when the schema version is
"1.2" with a non-empty runtime config or "2.0" with non-empty main steps; the
empty cases fail with their defined messages, and any other schema version
fails with a message naming the unsupported version. -/
theorem validateContent_spec (c : DocumentContent) :
    (validateContent c = Except.ok () ↔
      (c.SchemaVersion = "1.2" ∧ c.RuntimeConfig ≠ []) ∨
      (c.SchemaVersion = "2.0" ∧ c.MainSteps ≠ [])) ∧
    (c.SchemaVersion = "1.2" → c.RuntimeConfig = [] →
      validateContent c = Except.error "runtimeConfig cannot be empty") ∧
    (c.SchemaVersion = "2.0" → c.MainSteps = [] →
      validateContent c = Except.error "mainSteps cannot be empty") ∧
    (c.SchemaVersion ≠ "1.2" → c.SchemaVersion ≠ "2.0" →
      validateContent c =
        Except.error ("unsupported schema version " ++ c.SchemaVersion)) := by
  unfold validateContent
  by_cases h12 : c.SchemaVersion = "1.2"
  · rcases hrc : c.RuntimeConfig with _ | ⟨p, ps⟩ <;>
      simp [h12, hrc, List.length_eq_zero]
  · by_cases h20 : c.SchemaVersion = "2.0"
    · rcases hms : c.MainSteps with _ | ⟨s, ss⟩ <;>
        simp [h12, h20, hms, List.length_eq_zero]
    · simp [h12, h20]

/-- Witness for `validateContent_spec` at concrete documents. -/
theorem validateContent_spec_witness :
    validateContent { SchemaVersion := "1.2", RuntimeConfig := [], MainSteps := [] } =
      Except.error "runtimeConfig cannot be empty" ∧
    validateContent { SchemaVersion := "3.0", RuntimeConfig := [("p", "c")], MainSteps := ["s"] } =
      Except.error ("unsupported schema version " ++ "3.0") :=
  ⟨(validateContent_spec { SchemaVersion := "1.2", RuntimeConfig := [], MainSteps := [] }).2.1
      rfl rfl,
   (validateContent_spec { SchemaVersion := "3.0", RuntimeConfig := [("p", "c")], MainSteps := ["s"] }).2.2.2
      (by decide) (by decide)⟩

/-- Claim C2 (code bug): `setExeOutErr` passes the caller's stderr file name
to `UpdateStandOutPath`, so an unspecified stderr name resolves to the
`output/stdout` path, not `output/stderr`; `UpdateStandErrPath`, which would
give the documented default, is never used by `setExeOutErr`. -/
theorem setExeOutErrPaths_stderr_default_bug :
    setExeOutErrPaths "updateroot" "" "" =
      ("updateroot/output/stdout", "updateroot/output/stdout") ∧
    UpdateStandErrPath "updateroot" "" = "updateroot/output/stderr" ∧
    (setExeOutErrPaths "updateroot" "" "").2 ≠ UpdateStandErrPath "updateroot" "" := by
  refine ⟨by decide, by decide, by decide⟩

/-- Claim C8: `IsPlatformUsingSystemD` returns true exactly when the platform
name is a key of the systemd version table and the version comparison against
that threshold succeeds with a non-negative result; any platform outside the
table (including windows) yields false without error.  `versionCompare` is
universally quantified, so this holds for every behaviour of the external
`VersionCompare`. -/
theorem IsPlatformUsingSystemD_spec
    (versionCompare : String → String → Except String Int)
    (i : InstanceContext) :
    (IsPlatformUsingSystemD versionCompare i = Except.ok true ↔
      ∃ minVersion c, assocLookup i.Platform systemDVersionTable = some minVersion ∧
        versionCompare i.PlatformVersion minVersion = Except.ok c ∧ 0 ≤ c) ∧
    (assocLookup i.Platform systemDVersionTable = none →
      IsPlatformUsingSystemD versionCompare i = Except.ok false) ∧
    (i.Platform = "windows" →
      IsPlatformUsingSystemD versionCompare i = Except.ok false) ∧
    systemDVersionTable = [("centos", "7"), ("red hat", "7"), ("ubuntu", "15")] := by
  have hwin : ∀ hp : i.Platform = "windows",
      assocLookup i.Platform systemDVersionTable = none := by
    intro hp
    rw [hp]
    decide
  refine ⟨?_, ?_, ?_, by decide⟩
  · unfold IsPlatformUsingSystemD
    cases hl : assocLookup i.Platform systemDVersionTable with
    | none => simp [hl]
    | some minVersion =>
      cases hv : versionCompare i.PlatformVersion minVersion with
      | error e => simp [hl, hv]
      | ok compareResult =>
        by_cases hc : (0 : Int) ≤ compareResult
        · simp [hl, hv, hc, ge_iff_le]
        · simp [hl, hv, hc, ge_iff_le]
  · intro hl
    unfold IsPlatformUsingSystemD
    simp [hl]
  · intro hp
    unfold IsPlatformUsingSystemD
    simp [hwin hp]

/-- Witness for `IsPlatformUsingSystemD_spec` at a concrete comparator and
contexts. -/
theorem IsPlatformUsingSystemD_spec_witness :
    IsPlatformUsingSystemD (fun _ _ => Except.ok 1)
      { Region := "r", Platform := "centos", PlatformVersion := "7.1",
        InstallerName := "linux", Arch := "amd64", CompressFormat := "tar.gz" } =
      Except.ok true ∧
    IsPlatformUsingSystemD (fun _ _ => Except.ok 1)
      { Region := "r", Platform := "windows", PlatformVersion := "10",
        InstallerName := "windows", Arch := "amd64", CompressFormat := "zip" } =
      Except.ok false :=
  ⟨((IsPlatformUsingSystemD_spec (fun _ _ => Except.ok 1)
      { Region := "r", Platform := "centos", PlatformVersion := "7.1",
        InstallerName := "linux", Arch := "amd64", CompressFormat := "tar.gz" }).1).mpr
      ⟨"7", 1, by decide, rfl, by decide⟩,
   (IsPlatformUsingSystemD_spec (fun _ _ => Except.ok 1)
      { Region := "r", Platform := "windows", PlatformVersion := "10",
        InstallerName := "windows", Arch := "amd64", CompressFormat := "zip" }).2.2.1
      rfl⟩

/-- Claim C3: in supervised mode, when the child is reported with exit status
-1 and the timeout timer has fired (`timer.Stop()` returned false), the
returned failure carries the reserved stopped-preemptively exit code; when
the timer has not fired, the raw exit status is reported unchanged. -/
theorem exeCommand_timeout_exit_code_remap (env : SupervisedEnv) (status : Int)
    (hsetup : (setExeOutErr env).failed = false)
    (hstart : env.startOk = true)
    (hwait : env.waitOutcome = WaitOutcome.exitStatus status) :
    (env.timerFired = true → status = -1 →
      (exeCommandSupervised env).result =
        ExeResult.exitFailure CommandStoppedPreemptivelyExitCode) ∧
    (env.timerFired = false →
      (exeCommandSupervised env).result = ExeResult.exitFailure status) := by
  constructor
  · intro ht hs
    simp [exeCommandSupervised, hsetup, hstart, hwait, ht, hs]
  · intro ht
    simp [exeCommandSupervised, hsetup, hstart, hwait, ht]

/-- Witness for `exeCommand_timeout_exit_code_remap`: a timed-out kill is
reported with the reserved code, and a plain exit status 7 stays 7. -/
theorem exeCommand_timeout_exit_code_remap_witness :
    (exeCommandSupervised
        { mkdirOk := true, openStdoutOk := true, openStderrOk := true,
          startOk := true, waitOutcome := WaitOutcome.exitStatus (-1),
          timerFired := true }).result =
      ExeResult.exitFailure CommandStoppedPreemptivelyExitCode ∧
    (exeCommandSupervised
        { mkdirOk := true, openStdoutOk := true, openStderrOk := true,
          startOk := true, waitOutcome := WaitOutcome.exitStatus 7,
          timerFired := false }).result = ExeResult.exitFailure 7 :=
  ⟨(exeCommand_timeout_exit_code_remap _ (-1) (by decide) rfl rfl).1 rfl rfl,
   (exeCommand_timeout_exit_code_remap _ 7 (by decide) rfl rfl).2 rfl⟩

/-- Claim C7 counterexample: when the stdout file opens but the stderr file
fails to open, `ExeCommand` returns `setExeOutErr`'s error before the
deferred closes are registered, leaving the stdout handle open. -/
theorem exeCommand_handle_leak_cex :
    (exeCommandSupervised
        { mkdirOk := true, openStdoutOk := true, openStderrOk := false,
          startOk := true, waitOutcome := WaitOutcome.exited0,
          timerFired := false }).stdoutStillOpen = true ∧
    (exeCommandSupervised
        { mkdirOk := true, openStdoutOk := true, openStderrOk := false,
          startOk := true, waitOutcome := WaitOutcome.exited0,
          timerFired := false }).result = ExeResult.setupFailed := by
  decide

/-- Claim C7 (amended): every supervised exit path closes both acquired
output handles, except the path where the stdout file opened and the stderr
file failed to open; there the call returns with the stdout handle still
open. -/
theorem exeCommand_handle_close_amended (env : SupervisedEnv) :
    (¬(env.mkdirOk = true ∧ env.openStdoutOk = true ∧ env.openStderrOk = false) →
      (exeCommandSupervised env).stdoutStillOpen = false ∧
      (exeCommandSupervised env).stderrStillOpen = false) ∧
    (env.mkdirOk = true → env.openStdoutOk = true → env.openStderrOk = false →
      (exeCommandSupervised env).result = ExeResult.setupFailed ∧
      (exeCommandSupervised env).stdoutStillOpen = true ∧
      (exeCommandSupervised env).stderrStillOpen = false) := by
  rcases env with ⟨m, o1, o2, st, w, t⟩
  cases m <;> cases o1 <;> cases o2 <;> cases st <;> cases w <;>
    simp [exeCommandSupervised, setExeOutErr]

/-- Witness for `exeCommand_handle_close_amended`: on the all-successful path
both handles are closed at return. -/
theorem exeCommand_handle_close_amended_witness :
    (exeCommandSupervised
        { mkdirOk := true, openStdoutOk := true, openStderrOk := true,
          startOk := true, waitOutcome := WaitOutcome.exited0,
          timerFired := false }).stdoutStillOpen = false ∧
    (exeCommandSupervised
        { mkdirOk := true, openStdoutOk := true, openStderrOk := true,
          startOk := true, waitOutcome := WaitOutcome.exited0,
          timerFired := false }).stderrStillOpen = false :=
  (exeCommand_handle_close_amended
      { mkdirOk := true, openStdoutOk := true, openStderrOk := true,
        startOk := true, waitOutcome := WaitOutcome.exited0,
        timerFired := false }).1 (by decide)

/-- `fieldsAux acc cs` is empty exactly when the accumulator is empty and
every remaining character is whitespace. -/
theorem fieldsAux_eq_nil_iff (cs : List Char) (acc : List Char) :
    fieldsAux acc cs = [] ↔ acc = [] ∧ ∀ c ∈ cs, goIsSpace c = true := by
  induction cs generalizing acc with
  | nil =>
    by_cases hacc : acc = [] <;> simp [fieldsAux, hacc]
  | cons c rest ih =>
    by_cases hsp : goIsSpace c = true
    · by_cases hacc : acc = []
      · subst hacc
        simp [fieldsAux, hsp, ih]
      · simp [fieldsAux, hsp, hacc]
    · simp [fieldsAux, hsp, ih]

/-- Claim C9: a command string with no non-whitespace character splits into
an empty field list, on which the detached branch of `ExeCommand` indexes
`parts[0]` out of range and is undefined (`none`) instead of returning an
error; the call is defined exactly when at least one field exists. -/
theorem exeCommandAsync_empty_fields_undefined (cmd : String) :
    ((∀ c ∈ cmd.toList, goIsSpace c = true) → exeCommandAsyncArgv cmd = none) ∧
    (exeCommandAsyncArgv cmd = none ↔ goFields cmd = []) ∧
    (goFields cmd = [] → ∀ c ∈ cmd.toList, goIsSpace c = true) := by
  refine ⟨?_, ?_, ?_⟩
  · intro h
    have hf : goFields cmd = [] := by
      unfold goFields
      exact (fieldsAux_eq_nil_iff cmd.toList []).mpr ⟨rfl, h⟩
    simp [exeCommandAsyncArgv, hf]
  · unfold exeCommandAsyncArgv
    cases hf : goFields cmd <;> simp [hf]
  · intro hf
    exact ((fieldsAux_eq_nil_iff cmd.toList []).mp hf).2

/-- Witness for `exeCommandAsync_empty_fields_undefined`: a blank command
string leaves the detached branch undefined. -/
theorem exeCommandAsync_empty_fields_undefined_witness :
    exeCommandAsyncArgv " \t " = none :=
  (exeCommandAsync_empty_fields_undefined " \t ").1 (by decide)

/-- Every parameter key other than the content key contributes its
unknown-parameter message to the loop output. -/
theorem mem_unknownParamMsgs {parameters : List (String × List String)}
    {kv : String × List String} (hmem : kv ∈ parameters)
    (hne : kv.1 ≠ sendCommandContent) :
    unknownParameterMsg kv.1 ∈ unknownParamMsgs parameters := by
  induction parameters with
  | nil => cases hmem
  | cons p rest ih =>
    rcases List.mem_cons.mp hmem with heq | hmem'
    · subst heq
      simp [unknownParamMsgs, hne]
    · by_cases hp : p.1 ≠ sendCommandContent <;>
        simp [unknownParamMsgs, hp, ih hmem']

/-- Claim C1 counterexample: with a subcommand present and the content
parameter missing, the missing-content violation does not appear in the
returned message list, so the violations are not all reported jointly. -/
theorem validateSendCommandInput_not_joint_cex :
    requiredMsg ∉
      validateSendCommandInput (fun _ => false) (fun _ => false) ["foo"] [] := by
  decide

/-- Claim C1 (amended): when one or more subcommands are present, validation
short-circuits and returns only the subcommand violation (with a trailing
empty entry); when no subcommands are present, every violation present in
the input — missing content parameter, wrong value count, value neither
valid JSON nor a URL, and each unknown parameter — appears in the returned
message list. -/
theorem validateSendCommandInput_amended (validJson validUrl : String → Bool)
    (subcommands : List String)
    (parameters : List (String × List String)) :
    (subcommands ≠ [] →
      validateSendCommandInput validJson validUrl subcommands parameters =
        [subcommandMsg subcommands, ""]) ∧
    (subcommands = [] →
      (assocLookup sendCommandContent parameters = none →
        requiredMsg ∈
          validateSendCommandInput validJson validUrl subcommands parameters) ∧
      (∀ vs, assocLookup sendCommandContent parameters = some vs →
        vs.length ≠ 1 →
        expectedOneValueMsg ∈
          validateSendCommandInput validJson validUrl subcommands parameters) ∧
      (∀ v, assocLookup sendCommandContent parameters = some [v] →
        validJson v = false → validUrl v = false →
        jsonOrUrlMsg ∈
          validateSendCommandInput validJson validUrl subcommands parameters) ∧
      (∀ kv ∈ parameters, kv.1 ≠ sendCommandContent →
        unknownParameterMsg kv.1 ∈
          validateSendCommandInput validJson validUrl subcommands parameters)) := by
  constructor
  · intro hsub
    simp [validateSendCommandInput, hsub]
  · intro hsub
    subst hsub
    refine ⟨?_, ?_, ?_, ?_⟩
    · intro hl
      simp [validateSendCommandInput, contentParamMsgs, hl, requiredMsg]
    · intro vs hl hlen
      rcases vs with _ | ⟨v, _ | ⟨v2, vrest⟩⟩
      · simp [validateSendCommandInput, contentParamMsgs, hl]
      · exact absurd rfl hlen
      · simp [validateSendCommandInput, contentParamMsgs, hl]
    · intro v hl hj hu
      simp [validateSendCommandInput, contentParamMsgs, hl, hj, hu]
    · intro kv hmem hne
      have hred : validateSendCommandInput validJson validUrl [] parameters =
          contentParamMsgs validJson validUrl parameters ++
            unknownParamMsgs parameters := by
        simp [validateSendCommandInput]
      rw [hred, List.mem_append]
      exact Or.inr (mem_unknownParamMsgs hmem hne)

/-- Witness for `validateSendCommandInput_amended`: with no subcommands, a
two-valued content parameter and an unknown parameter are both reported. -/
theorem validateSendCommandInput_amended_witness :
    expectedOneValueMsg ∈
      validateSendCommandInput (fun _ => false) (fun _ => false) []
        [(sendCommandContent, ["x", "y"]), ("foo", ["z"])] ∧
    unknownParameterMsg "foo" ∈
      validateSendCommandInput (fun _ => false) (fun _ => false) []
        [(sendCommandContent, ["x", "y"]), ("foo", ["z"])] :=
  ⟨((validateSendCommandInput_amended (fun _ => false) (fun _ => false) []
        [(sendCommandContent, ["x", "y"]), ("foo", ["z"])]).2 rfl).2.1
      ["x", "y"] (by decide) (by decide),
   ((validateSendCommandInput_amended (fun _ => false) (fun _ => false) []
        [(sendCommandContent, ["x", "y"]), ("foo", ["z"])]).2 rfl).2.2.2
      ("foo", ["z"]) (by decide) (by decide)⟩

/-- The suffix kept by `afterLastDotL` really is what follows the last dot:
any character list containing `'.'` splits as a prefix, a final `'.'`, and
the dot-free suffix `afterLastDotL` returns. -/
theorem afterLastDotL_decomp (cs : List Char) (h : '.' ∈ cs) :
    ∃ p, cs = p ++ '.' :: afterLastDotL cs ∧ '.' ∉ afterLastDotL cs := by
  induction cs with
  | nil => cases h
  | cons c rest ih =>
    by_cases hr : '.' ∈ rest
    · obtain ⟨p, hp, hnd⟩ := ih hr
      refine ⟨c :: p, ?_, ?_⟩
      · rw [show afterLastDotL (c :: rest) = afterLastDotL rest from by
          simp [afterLastDotL, hr]]
        rw [List.cons_append]
        exact congrArg (c :: ·) hp
      · rw [show afterLastDotL (c :: rest) = afterLastDotL rest from by
          simp [afterLastDotL, hr]]
        exact hnd
    · have hc : c = '.' := by
        rcases List.mem_cons.mp h with heq | hmem
        · exact heq.symm
        · exact absurd hmem hr
      subst hc
      have ha : afterLastDotL ('.' :: rest) = rest := by
        simp [afterLastDotL, hr]
      refine ⟨[], ?_, ?_⟩
      · rw [ha]
        rfl
      · rw [ha]
        exact hr

/-- Claim C5: `isDocumentProcessed` reports a match exactly when some file
name has the document name as a prefix and contains a dot; on the first such
file it returns the suffix after that file's last dot, which is the
consumer-assigned command id, and a successful poll reports exactly that
suffix in its message. -/
theorem isDocumentProcessed_spec (documentName : String) (files : List String) :
    ((isDocumentProcessed documentName files).1 = true ↔
      ∃ f ∈ files, documentName.toList <+: f.toList ∧ '.' ∈ f.toList) ∧
    (∀ pre f post, files = pre ++ f :: post →
      (∀ g ∈ pre, matchesDocument documentName g = false) →
      matchesDocument documentName f = true →
      isDocumentProcessed documentName files = (true, afterLastDot f)) ∧
    (∀ f : String, '.' ∈ f.toList →
      ∃ p, f.toList = p ++ '.' :: (afterLastDot f).toList ∧
        '.' ∉ (afterLastDot f).toList) ∧
    (∀ (viewAt : Nat → AreaView) (deleteOutcome : Bool) (finalView : AreaView)
        (commandId : String),
      isDocumentProcessedL documentName (viewAt 0).submitted = (true, commandId) →
      (waitForSubmitStatus documentName viewAt deleteOutcome finalView).message =
        successMsg commandId) := by
  refine ⟨?_, ?_, ?_, ?_⟩
  · induction files with
    | nil => simp [isDocumentProcessed]
    | cons file rest ih =>
      by_cases hm : matchesDocument documentName file = true
      · have hm' := hm
        simp only [matchesDocument, Bool.and_eq_true, decide_eq_true_eq,
          List.isPrefixOf_iff_prefix] at hm'
        simp only [isDocumentProcessed, if_pos hm]
        simp only [List.mem_cons, true_iff]
        exact ⟨file, Or.inl rfl, hm'.1, hm'.2⟩
      · have hm' : ¬(documentName.toList <+: file.toList ∧ '.' ∈ file.toList) := by
          intro hcon
          exact hm (by
            simp only [matchesDocument, Bool.and_eq_true, decide_eq_true_eq,
              List.isPrefixOf_iff_prefix]
            exact hcon)
        simp only [isDocumentProcessed, if_neg hm, ih, List.mem_cons]
        constructor
        · rintro ⟨f, hf, hpre, hdot⟩
          exact ⟨f, Or.inr hf, hpre, hdot⟩
        · rintro ⟨f, hf | hf, hpre, hdot⟩
          · subst hf
            exact absurd ⟨hpre, hdot⟩ hm'
          · exact ⟨f, hf, hpre, hdot⟩
  · intro pre f post hfiles hpre hf
    subst hfiles
    induction pre with
    | nil => simp [isDocumentProcessed, hf]
    | cons g pre' ih =>
      have hg : matchesDocument documentName g = false :=
        hpre g (List.mem_cons_self g pre')
      rw [List.cons_append]
      simp only [isDocumentProcessed, hg]
      rw [if_neg (by simp [hg])]
      exact ih fun g' hg' => hpre g' (List.mem_cons_of_mem g hg')
  · intro f hdot
    obtain ⟨p, hp, hnd⟩ := afterLastDotL_decomp f.toList hdot
    exact ⟨p, hp, hnd⟩
  · intro viewAt deleteOutcome finalView commandId hproc
    have hcheck : checkAreas documentName (viewAt 0) = some (successMsg commandId) := by
      simp [checkAreas, hproc]
    have hpoll : pollLoop documentName viewAt 0 10 = some (successMsg commandId) := by
      rw [show (10 : Nat) = 9 + 1 from rfl]
      simp [pollLoop, hcheck]
    simp [waitForSubmitStatus, hpoll]

/-- Witness for `isDocumentProcessed_spec`: a submitted-area entry
`doc1.abc` for document `doc1` matches and yields command id `abc`. -/
theorem isDocumentProcessed_spec_witness :
    isDocumentProcessed "doc1" ["doc1.abc"] = (true, afterLastDot "doc1.abc") ∧
    afterLastDot "doc1.abc" = "abc" :=
  ⟨(isDocumentProcessed_spec "doc1" ["doc1.abc"]).2.1 [] "doc1.abc" [] rfl
      (by simp) (by decide),
   by decide⟩

/-- The success message can never coincide with the timeout message: the
fixed leading text is already longer than the whole timeout message. -/
theorem successMsg_ne_timedOutMsg (commandId : String) :
    successMsg commandId ≠ timedOutMsg := by
  intro h
  have hl := congrArg String.length h
  rw [successMsg, String.length_append] at hl
  rw [show ("successfully submitted with command id: " : String).length = 40
    from by decide] at hl
  rw [show (timedOutMsg : String).length = 36 from by decide] at hl
  omega

/-- If no attempt of the polling loop finds a match, the loop returns
nothing, for any start index and fuel. -/
theorem pollLoop_none_of_checks (documentName : String) (viewAt : Nat → AreaView)
    (h : ∀ i, checkAreas documentName (viewAt i) = none) :
    ∀ i fuel, pollLoop documentName viewAt i fuel = none := by
  intro i fuel
  induction fuel generalizing i with
  | zero => rfl
  | succ n ih => simp [pollLoop, h, ih]

/-- Claim C4: once the ten polling attempts find no match, the pending file
deletion is reached, its outcome does not influence the result, and one
final check of the submitted then the invalid area decides the returned
message; a match there is reported as success or invalid, never as timed
out. -/
theorem waitForSubmitStatus_timeout_final_check (documentName : String)
    (viewAt : Nat → AreaView) (d d' : Bool) (finalView : AreaView)
    (h : pollLoop documentName viewAt 0 10 = none) :
    waitForSubmitStatus documentName viewAt d finalView =
      waitForSubmitStatus documentName viewAt d' finalView ∧
    (waitForSubmitStatus documentName viewAt d finalView).deletedPending = true ∧
    ((isDocumentProcessedL documentName finalView.submitted).1 = true →
      (waitForSubmitStatus documentName viewAt d finalView).message =
        successMsg (isDocumentProcessedL documentName finalView.submitted).2) ∧
    ((isDocumentProcessedL documentName finalView.submitted).1 = false →
      (isDocumentProcessedL documentName finalView.invalid).1 = true →
      (waitForSubmitStatus documentName viewAt d finalView).message = invalidMsg) ∧
    (((isDocumentProcessedL documentName finalView.submitted).1 = true ∨
        (isDocumentProcessedL documentName finalView.invalid).1 = true) →
      (waitForSubmitStatus documentName viewAt d finalView).message ≠ timedOutMsg) := by
  refine ⟨by simp [waitForSubmitStatus, h], ?_, ?_, ?_, ?_⟩
  · cases hc : checkAreas documentName finalView <;>
      simp [waitForSubmitStatus, h, hc]
  · intro hs
    have hc : checkAreas documentName finalView =
        some (successMsg (isDocumentProcessedL documentName finalView.submitted).2) := by
      simp [checkAreas, hs]
    simp [waitForSubmitStatus, h, hc]
  · intro hs hi
    have hc : checkAreas documentName finalView = some invalidMsg := by
      simp [checkAreas, hs, hi]
    simp [waitForSubmitStatus, h, hc]
  · intro hor
    by_cases hs : (isDocumentProcessedL documentName finalView.submitted).1 = true
    · have hc : checkAreas documentName finalView =
          some (successMsg (isDocumentProcessedL documentName finalView.submitted).2) := by
        simp [checkAreas, hs]
      simp [waitForSubmitStatus, h, hc]
      exact successMsg_ne_timedOutMsg _
    · have hi : (isDocumentProcessedL documentName finalView.invalid).1 = true := by
        rcases hor with hor | hor
        · exact absurd hor hs
        · exact hor
      have hc : checkAreas documentName finalView = some invalidMsg := by
        simp [checkAreas, Bool.eq_false_iff.mpr hs, hi]
      simp [waitForSubmitStatus, h, hc]
      decide

/-- Witness for `waitForSubmitStatus_timeout_final_check`: ten empty polls
followed by a consumer transition visible only in the final check still
report the deletion step and a non-timeout message. -/
theorem waitForSubmitStatus_timeout_final_check_witness :
    (waitForSubmitStatus "doc1" (fun _ => ⟨Except.ok [], Except.ok []⟩) true
        ⟨Except.ok ["doc1.xyz"], Except.ok []⟩).deletedPending = true ∧
    (waitForSubmitStatus "doc1" (fun _ => ⟨Except.ok [], Except.ok []⟩) true
        ⟨Except.ok ["doc1.xyz"], Except.ok []⟩).message ≠ timedOutMsg :=
  ⟨(waitForSubmitStatus_timeout_final_check "doc1"
      (fun _ => ⟨Except.ok [], Except.ok []⟩) true true
      ⟨Except.ok ["doc1.xyz"], Except.ok []⟩ (by decide)).2.1,
   (waitForSubmitStatus_timeout_final_check "doc1"
      (fun _ => ⟨Except.ok [], Except.ok []⟩) true true
      ⟨Except.ok ["doc1.xyz"], Except.ok []⟩ (by decide)).2.2.2.2
      (Or.inl (by decide))⟩

/-- Claim C10: a listing failure is coerced to "no match" — the error is
discarded and `isDocumentProcessed` sees an empty listing — so when every
listing fails on every attempt and in the final check, the whole wait
returns the timed-out outcome rather than surfacing an error. -/
theorem listing_failure_coerced_to_no_match (documentName : String)
    (viewAt : Nat → AreaView) (deleteOutcome : Bool) (finalView : AreaView)
    (hview : ∀ i, (viewAt i).submitted = Except.error () ∧
      (viewAt i).invalid = Except.error ())
    (hfinal : finalView.submitted = Except.error () ∧
      finalView.invalid = Except.error ()) :
    (∀ name : String, isDocumentProcessedL name (Except.error ()) = (false, "")) ∧
    waitForSubmitStatus documentName viewAt deleteOutcome finalView =
      { message := timedOutMsg, deletedPending := true } := by
  have hproc : ∀ name : String,
      isDocumentProcessedL name (Except.error ()) = (false, "") := by
    intro name
    rfl
  refine ⟨hproc, ?_⟩
  have hchecks : ∀ i, checkAreas documentName (viewAt i) = none := by
    intro i
    simp [checkAreas, (hview i).1, (hview i).2, hproc]
  have hfinalCheck : checkAreas documentName finalView = none := by
    simp [checkAreas, hfinal.1, hfinal.2, hproc]
  simp [waitForSubmitStatus,
    pollLoop_none_of_checks documentName viewAt hchecks 0 10, hfinalCheck]

/-- Witness for `listing_failure_coerced_to_no_match`: with every listing
failing, the wait times out instead of erroring. -/
theorem listing_failure_coerced_to_no_match_witness :
    waitForSubmitStatus "doc1" (fun _ => ⟨Except.error (), Except.error ()⟩)
      false ⟨Except.error (), Except.error ()⟩ =
      { message := timedOutMsg, deletedPending := true } :=
  (listing_failure_coerced_to_no_match "doc1"
    (fun _ => ⟨Except.error (), Except.error ()⟩) false
    ⟨Except.error (), Except.error ()⟩
    (fun _ => ⟨rfl, rfl⟩) ⟨rfl, rfl⟩).2

end SsmAgent
